import Mathlib

/-!
Shallow embedding of the finagent task-orchestration agent
(`app/agents/core.py`, `task_planner.py`, `task_reviewer.py`, `router.py`,
`memory.py`) and proofs about its subgoal execution state machine.

Python dicts with a known key set are modelled as structures whose fields are
`Option`s (`none` = the key is absent); Python `None` stored under a key is a
separate constructor where it can occur.  Fallible code returns `Except PyErr`;
external collaborators (the text-generation service, the capability tools, the
evaluator, the similarity index) are oracles supplied as explicit arguments.
-/

namespace FinAgent

/-- Exceptions of the Python runtime that the embedded code can raise. -/
inductive PyErr where
  | keyError (k : String)
  | indexError
  | attributeError (m : String)
  | typeError (m : String)
  | valueError (m : String)
  | validationError (m : String)
  | exn (m : String)
deriving DecidableEq, Repr

/-- Python `str(e)` for the exceptions above (`KeyError` renders its key quoted). -/
def PyErr.msg : PyErr → String
  | .keyError k => "\x27" ++ k ++ "\x27"
  | .indexError => "list index out of range"
  | .attributeError m => m
  | .typeError m => m
  | .valueError m => m
  | .validationError m => m
  | .exn m => m

/-- A role-tagged chat message: the `{"role": ..., "content": ...}` dicts of
`memory.py`. -/
structure Msg where
  role : String
  content : String
deriving DecidableEq, Repr

/-- A tool result envelope: a Python dict over the known keys `type`, `result`,
`display`, `query`, `error`, each possibly absent. -/
structure ResultEnv where
  type_ : Option String := none
  result : Option String := none
  display : Option String := none
  query : Option String := none
  error : Option String := none
deriving DecidableEq, Repr

/-- Python truthiness of a `ResultEnv` dict: non-empty iff some key is present. -/
def ResultEnv.truthy (e : ResultEnv) : Bool :=
  e.type_.isSome || e.result.isSome || e.display.isSome || e.query.isSome || e.error.isSome

/-- The Python value stored under a subgoal's `result` key: `None` or an
envelope dict. -/
inductive RVal where
  | pyNone
  | env (e : ResultEnv)
deriving DecidableEq, Repr

/-- One subgoal dict, as produced by `TaskPlanner.plan` and mutated in place by
the orchestrator (`core.py`).  Every key the Python code may leave absent is an
`Option` (`none` = missing key).  `query` is doubly optional because
`TaskReviewer.review` can store Python `None` under the `query` key. -/
structure Subgoal where
  order_number : Int
  description : String
  depends_on : Option (List String)
  tool : Option String := none
  query : Option (Option String) := none
  is_url : Option Bool := none
  completed : Option Bool := none
  skipped : Option Bool := none
  retries : Option Nat := none
  result : Option RVal := none
  feedback : Option String := none
  retry : Option Bool := none
deriving DecidableEq, Repr

/-- Whether `pat` occurs as a contiguous run inside the character list. -/
def infixOfAux (pat : List Char) : List Char → Bool
  | [] => pat.isEmpty
  | c :: rest => pat.isPrefixOf (c :: rest) || infixOfAux pat rest

/-- Python `pat in s` on strings: substring containment. -/
def strContains (s pat : String) : Bool :=
  infixOfAux pat.toList s.toList

/-- Python `str.lower()`. -/
def strLower (s : String) : String :=
  String.mk (s.toList.map Char.toLower)

/-- Python `str.strip()`. -/
def pyStrip (s : String) : String :=
  String.mk (((s.toList.dropWhile Char.isWhitespace).reverse.dropWhile Char.isWhitespace).reverse)

/-- The remainder of the character list after the first occurrence of `sep`
(Python `split(sep, 1)[1]`): `none` when `sep` does not occur. -/
def restAfterFirst (sep : List Char) : List Char → Option (List Char)
  | [] => none
  | c :: rest =>
    if sep.isPrefixOf (c :: rest) then some ((c :: rest).drop sep.length)
    else restAfterFirst sep rest

/-- `TaskReviewer.__init__` default `max_retries`. -/
def defaultMaxRetries : Nat := 3

/-- `TaskReviewer.should_retry` (`task_reviewer.py` lines 66-98): decides
`"retry"` vs `"continue"` for the just-reviewed current subgoal.  The body is
wrapped in try/except returning `"continue"`; the only statement in it that can
raise is the membership test on a feedback value that is absent (`.get` with no
default yields `None`, and `in None` raises `TypeError`), which the except
branch turns into `"continue"`. -/
def should_retry (max_retries : Nat) (sg : Subgoal) : String :=
  if sg.skipped.getD false then "continue"
  else if !(sg.completed.getD false) then
    if sg.is_url.getD false then
      match sg.feedback with
      | none => "continue"
      | some fb =>
        if !(strContains fb "error") then "continue"
        else if sg.retries.getD 0 < max_retries then "retry"
        else "continue"
    else if sg.retries.getD 0 < max_retries then "retry"
    else "continue"
  else "continue"

/-- Claim-side rendering of the retry decision table, written from the spec
text of section 4.4: the six cases in the order the spec lists them, with the
spec's "on any exception" case modelled as the absent-feedback test. -/
def should_retry_spec_table (max_retries : Nat) (sg : Subgoal) : String :=
  if sg.skipped.getD false then "continue"
  else if sg.completed.getD false then "continue"
  else if sg.is_url.getD false && (sg.feedback.map (fun fb => strContains fb "error") == some false) then
    "continue"
  else if sg.is_url.getD false && sg.feedback.isNone then "continue"
  else if sg.retries.getD 0 < max_retries then "retry"
  else "continue"

/-! ## Memory store (`memory.py`) -/

/-- `MemoryManager` state: permanent log, sliding window (`recent_context`),
running summary, and whether the similarity index exists
(`vector_store is not None`). -/
structure MemState where
  log : List Msg := []
  recent : List Msg := []
  summary : String := ""
  vec : Bool := false
deriving DecidableEq, Repr

/-- `MemoryManager.max_recent_interactions`. -/
def maxRecentInteractions : Nat := 5

/-- `MemoryManager._summarize_context`: regenerate the running summary from the
current window by one text-generation call, keeping the previous summary if the
service raises (the except branch).  Returns the new state together with the
number of service invocations made (0 or 1). -/
def summarize_context (oracle : List Msg → Except PyErr String) (m : MemState) :
    MemState × Nat :=
  if m.recent.isEmpty then (m, 0)
  else
    match oracle m.recent with
    | .ok s => ({ m with summary := s }, 1)
    | .error _ => (m, 1)

/-- `MemoryManager.add_to_memory`: append to the permanent log and to the
sliding window; if the window now exceeds 5 entries, first regenerate the
summary (`_summarize_context`), then evict the oldest entry (`pop(0)`); finally
index the new message (`_update_vector_store` catches its own failures, so
`index_ok` records whether the index exists afterwards).  Returns the new state
and the number of summary regenerations performed. -/
def add_to_memory (summOracle : List Msg → Except PyErr String) (index_ok : Bool)
    (m : MemState) (role content : String) : MemState × Nat :=
  let m1 := { m with log := m.log ++ [⟨role, content⟩], recent := m.recent ++ [⟨role, content⟩] }
  let step1 :=
    if maxRecentInteractions < m1.recent.length then
      let s1 := summarize_context summOracle m1
      ({ s1.1 with recent := s1.1.recent.tail }, s1.2)
    else (m1, 0)
  ({ step1.1 with vec := step1.1.vec || index_ok }, step1.2)

/-- One document returned by `vector_store.similarity_search`: its metadata may
lack the `role` key, and its text is the indexed `"role: content"` line. -/
structure SearchDoc where
  role : Option String
  page_content : String
deriving DecidableEq, Repr

/-- Turn one similarity-search document back into a message
(`get_relevant_context` body): `doc.metadata["role"]` raises `KeyError` when
the key is absent, and `doc.page_content.split(": ", 1)[1]` raises `IndexError`
when the separator does not occur. -/
def parse_search_doc (d : SearchDoc) : Except PyErr Msg :=
  match d.role with
  | none => .error (.keyError "role")
  | some r =>
    match restAfterFirst ": ".toList d.page_content.toList with
    | none => .error .indexError
    | some cs => .ok ⟨r, String.mk cs⟩

/-- All-or-nothing parse of a search-hit batch: output-equivalent to the
Python loop because its partially built list is discarded by the except
branch on the first failure. -/
def parse_docs : List SearchDoc → Except PyErr (List Msg)
  | [] => .ok []
  | d :: ds =>
    match parse_search_doc d with
    | .error e => .error e
    | .ok mg => (parse_docs ds).map (fun rest => mg :: rest)

/-- The synthetic summary entry of `get_relevant_context` (present only when
the running summary is non-empty, i.e. truthy). -/
def summaryEntry (m : MemState) : List Msg :=
  if m.summary = "" then []
  else [⟨"system", "Previous conversation summary: " ++ m.summary⟩]

/-- `MemoryManager.get_relevant_context`: summary entry (if any), then the full
sliding window, then the parsed similarity hits appended one by one when not
already present.  Any exception inside the try block (a failing search call or
an unparsable document) discards the accumulated list and falls back to the
sliding window alone, so an all-or-nothing `mapM` over the documents is
output-equivalent to the Python loop. -/
def get_relevant_context (m : MemState) (searchRes : Except PyErr (List SearchDoc)) :
    List Msg :=
  let base := summaryEntry m ++ m.recent
  if !m.vec then base
  else
    match searchRes with
    | .error _ => m.recent
    | .ok docs =>
      match parse_docs docs with
      | .error _ => m.recent
      | .ok msgs => msgs.foldl (fun acc mg => if mg ∈ acc then acc else acc ++ [mg]) base

/-! ## Tool router (`router.py`) -/

/-- The registered tool names (`FinancialAgent._initialize_tools`).  Each
langchain tool object's `.name` attribute equals its registry key, so tools are
modelled by their names. -/
def toolRegistry : List String :=
  ["web_search", "calculator", "code_executor", "document_summarizer"]

/-- `self.tools.get(name)` on the string-keyed registry. -/
def toolsGet (name : String) : Option String :=
  if name ∈ toolRegistry then some name else none

/-- The validated `ToolRouterSchema` routing decision. -/
structure RouteResponse where
  selected_tool : String
  query : String
  is_url : Bool
deriving DecidableEq, Repr

/-- `ToolRouter.route` (`router.py` lines 28-64).  The oracle argument is the
outcome of `chain.invoke` (`none` models a falsy/absent decision).  The except
branch re-raises, so every exception propagates to the caller:
* a raising service call propagates;
* a falsy response assigns web_search defaults, but the immediately following
  `ToolRouterSchema.model_validate(response)` on `None` raises a
  `ValidationError`, so the defaults are dead stores;
* an empty selected tool name makes the code assign the web_search tool
  OBJECT (not its name) to `selected_tool_name`; `self.tools.get(<BaseTool>)`
  then raises `TypeError` because non-frozen pydantic models are unhashable;
* otherwise the lowercased name is looked up with `.get`, which yields `None`
  (no default applied) when the name is not registered. -/
def route (resp : Except PyErr (Option RouteResponse)) (subgoal : String) :
    Except PyErr (Option String × String × Bool) :=
  match resp with
  | .error e => .error e
  | .ok none => .error (.validationError "1 validation error for ToolRouterSchema")
  | .ok (some r) =>
    let selected_tool_name := strLower r.selected_tool
    let query := r.query
    let is_url := r.is_url
    if selected_tool_name = "" then
      .error (.typeError "unhashable type: WebSearchTool")
    else
      .ok (toolsGet selected_tool_name, query, is_url)

/-! ## Task planner (`task_planner.py`) and the planning phase of
`FinancialAgent.process_query` (`core.py` lines 356-385) -/

/-- One `GoalSchema` record of the validated planning response (`depends_on`
is `list[str] | None`). -/
structure PlannedGoal where
  order_number : Int
  description : String
  depends_on : Option (List String)
deriving DecidableEq, Repr

/-- The `subgoals` field of `TaskPlannerSchema`:
`list[GoalSchema] | str | None`. -/
inductive SubgoalsField where
  | goals (gs : List PlannedGoal)
  | strVal (s : String)
  | pyNull
deriving DecidableEq, Repr

/-- The validated `TaskPlannerSchema` planning response. -/
structure PlanResponse where
  subgoals : SubgoalsField
  explanation : String
deriving DecidableEq, Repr

/-- The user-facing sentinel message built by `TaskPlanner.plan` (and checked
for, unreachably, by `process_query`). -/
def couldNotBreakDownMsg : String :=
  "I couldn\x27t break down your query into actionable steps. Could you please rephrase it?"

/-- What `TaskPlanner.plan` returns to its caller: either the bare error string
(the sentinel branch has a lone `return error_msg`) or the
`(subgoals, explanation)` pair. -/
inductive PlanRet where
  | errStr (s : String)
  | pair (subgoals : List Subgoal) (explanation : String)
deriving DecidableEq, Repr

/-- A planner-produced subgoal: the goal record augmented with the life-cycle
fields `retries=0`, `completed=False`, `result=None`. -/
def augmentGoal (g : PlannedGoal) : Subgoal :=
  { order_number := g.order_number, description := g.description,
    depends_on := g.depends_on, retries := some 0, completed := some false,
    result := some .pyNone }

/-- `TaskPlanner.plan` (`task_planner.py` lines 27-48).  The oracle argument is
the outcome of `chain.invoke(...).model_dump()`; the except branch re-raises,
so service failures propagate.  On the `None` / empty-or-"null"-string sentinel
it returns the user-facing error STRING itself instead of a pair.  A
non-sentinel plain-string `subgoals` value reaches the augmentation loop, which
iterates the string character by character and raises `TypeError` on the first
item assignment `subgoal["retries"] = 0`; an empty string never reaches the
loop but is already caught by the sentinel test. -/
def plan (resp : Except PyErr PlanResponse) : Except PyErr PlanRet :=
  match resp with
  | .error e => .error e
  | .ok r =>
    match r.subgoals with
    | .pyNull => .ok (.errStr couldNotBreakDownMsg)
    | .strVal s =>
      if pyStrip s = "" || pyStrip s = "null" then .ok (.errStr couldNotBreakDownMsg)
      else .error (.typeError "str object does not support item assignment")
    | .goals gs => .ok (.pair (gs.map augmentGoal) r.explanation)

/-- Outcome of the planning section of `process_query`. -/
inductive PlanPhase where
  | earlyReturn (msg : String)
  | directAnswer
  | runWorkflow (subgoals : List Subgoal)
  | degenerateUnpack (s : String)
deriving DecidableEq, Repr

/-- The planning section of `FinancialAgent.process_query` (`core.py` lines
356-385).  It unpacks `subgoals, explanation = self.task_planner.plan(...)`:
when `plan` returned a bare string, tuple unpacking iterates its characters and
raises `ValueError` unless the string has exactly two characters (that
degenerate sub-case cannot arise from `plan`, whose only string return is the
84-character sentinel message, and is left abstract); the surrounding inner
`except` converts any exception into the "error while planning" message.  When
the unpack succeeds, `subgoals` is a list, so the `None`/string sentinel checks
are false; an empty list answers directly from context, a non-empty list is
handed to the workflow. -/
def planningPhase (planRet : Except PyErr PlanRet) : PlanPhase :=
  match planRet with
  | .error e =>
    .earlyReturn ("I encountered an error while planning how to answer your query: " ++ e.msg)
  | .ok (.errStr s) =>
    if s.length = 2 then .degenerateUnpack s
    else if s.length < 2 then
      .earlyReturn ("I encountered an error while planning how to answer your query: not enough values to unpack (expected 2, got " ++ toString s.length ++ ")")
    else
      .earlyReturn ("I encountered an error while planning how to answer your query: too many values to unpack (expected 2)")
  | .ok (.pair gs _) =>
    if gs.isEmpty then .directAnswer else .runWorkflow gs

/-! ## Orchestrator state machine (`core.py`, `_create_workflow`) -/

/-- The validated `TaskReviewerSchema` review verdict (`query` is
`str | None`). -/
structure ReviewResponse where
  completed : Bool
  description : String
  feedback : String
  retry : Bool
  query : Option String
  is_url : Bool
deriving DecidableEq, Repr

/-- Calls issued to the router / capability tools, recorded for the theorems
that assert a step issues no tool call. -/
inductive Event where
  | routeCall (input : String)
  | toolCall (tool : String)
deriving DecidableEq, Repr

/-- `AgentState.final_response`: the dataclass field holds either a bare string
(the default `""`, or the synthesis error message) or the
`{content, display}` dict. -/
inductive FinalResp where
  | str (s : String)
  | dict (content : String) (display : Option String)
deriving DecidableEq, Repr

/-- The mutable `AgentState` threaded through the workflow, together with the
bookkeeping (`clock`, `events`) that sequences oracle consultations. -/
structure MachineState where
  task : String
  query : String
  subgoals : List Subgoal
  idx : Nat
  mem : MemState
  finalResponse : FinalResp := .str ""
  clock : Nat := 0
  events : List Event := []
deriving Repr

/-- The external collaborators, as clock-indexed oracles: each consultation is
a blocking call that may raise. -/
structure Env where
  routeResp : Nat → String → Except PyErr (Option RouteResponse)
  toolRun : Nat → String → Option String → Bool → Except PyErr ResultEnv
  evalRun : Nat → Except PyErr Unit
  reviewResp : Nat → Subgoal → Except PyErr ReviewResponse
  synthResp : Nat → String → String → Except PyErr String
  searchDocs : Nat → String → Except PyErr (List SearchDoc)
  summResp : Nat → List Msg → Except PyErr String
  indexOk : Nat → Bool

/-- `FinancialAgent._get_memory_context`: classify the relevant-context
messages into (conversation summary, recent window hits, historical hits) by a
single pass in order. -/
def get_memory_context (m : MemState) (ctx : List Msg) : String × List Msg × List Msg :=
  ctx.foldl
    (fun acc mg =>
      if mg.role = "system" && strContains (strLower mg.content) "summary" then
        (mg.content, acc.2.1, acc.2.2)
      else if mg ∈ m.recent then (acc.1, acc.2.1 ++ [mg], acc.2.2)
      else (acc.1, acc.2.1, acc.2.2 ++ [mg]))
    ("", [], [])

/-- Render `role: content` lines joined by newlines. -/
def renderMsgs (l : List Msg) : String :=
  String.intercalate "\n" (l.map (fun mg => mg.role ++ ": " ++ mg.content))

/-- `FinancialAgent._format_memory_context`: the three sections, each omitted
when empty, joined by blank lines. -/
def format_memory_context : String × List Msg × List Msg → String
  | (summary, recent, hist) =>
    String.intercalate "\n\n"
      ((if summary = "" then [] else [summary]) ++
       (if recent.isEmpty then [] else ["Recent Context:\n" ++ renderMsgs recent]) ++
       (if hist.isEmpty then [] else ["Related Historical Context:\n" ++ renderMsgs hist]))

/-- Python `str(...)` of the value stored under a subgoal's `result` key with
the `.get('result', '')` default; the dict rendering lists the present keys of
the envelope in a fixed order (the exact repr feeds only prompt text). -/
def renderRVal : Option RVal → String
  | none => ""
  | some .pyNone => "None"
  | some (.env e) =>
    let fields : List (String × Option String) :=
      [("type", e.type_), ("result", e.result), ("display", e.display),
       ("query", e.query), ("error", e.error)]
    "\x7b" ++
      String.intercalate ", "
        (fields.filterMap (fun p => p.2.map (fun v => "\x27" ++ p.1 ++ "\x27: \x27" ++ v ++ "\x27"))) ++
      "\x7d"

/-- Python dict assignment on an insertion-ordered association list: overwrite
in place if the key exists, append otherwise. -/
def assocSet (l : List (String × String)) (k v : String) : List (String × String) :=
  if l.any (fun p => p.1 = k) then l.map (fun p => if p.1 = k then (k, v) else p)
  else l ++ [(k, v)]

/-- The loop of `FinancialAgent._check_dependencies` over the subgoals before
the cursor, in order: a referenced prerequisite that is not completed marks the
current subgoal skipped and stops the scan, returning the entries collected so
far; a completed prerequisite contributes a `description -> str(result)`
entry. -/
def check_dependencies_aux (deps : List String) (cur : Subgoal)
    (acc : List (String × String)) : List Subgoal → List (String × String) × Subgoal
  | [] => (acc, cur)
  | sg :: rest =>
    if toString sg.order_number ∈ deps then
      if !(sg.completed.getD false) then (acc, { cur with skipped := some true })
      else check_dependencies_aux deps cur (assocSet acc sg.description (renderRVal sg.result)) rest
    else check_dependencies_aux deps cur acc rest

/-- `FinancialAgent._check_dependencies` (`core.py` lines 102-121).  With no
previous subgoals the loop body never runs; otherwise a `None` `depends_on`
value makes the membership test raise `TypeError` on the first iteration
(caught by `process_subgoal`'s except branch). -/
def check_dependencies (prior : List Subgoal) (cur : Subgoal) :
    Except PyErr (List (String × String) × Subgoal) :=
  match prior with
  | [] => .ok ([], cur)
  | _ =>
    match cur.depends_on with
    | none => .error (.typeError "argument of type NoneType is not iterable")
    | some deps => .ok (check_dependencies_aux deps cur [] prior)

/-- The except branch of `process_subgoal`: write an error envelope and
`completed=False` onto the current subgoal (whatever tool/query the try block
already recorded persists, since the handler mutates the same dict). -/
def exceptSg (sg : Subgoal) (e : PyErr) : Subgoal :=
  { sg with result := some (.env { error := some e.msg }), completed := some false }

/-- Write the current subgoal back into the state
(`state.subgoals[state.current_subgoal_index] = current_subgoal`). -/
def writeBack (s : MachineState) (sg : Subgoal) (clock : Nat) (events : List Event) :
    MachineState :=
  { s with subgoals := s.subgoals.set s.idx sg, clock := clock, events := events }

/-- `FinancialAgent.process_subgoal` (`core.py` lines 123-168).  The whole body
is in a try block whose except branch writes an error envelope and
`completed=False`; an out-of-range cursor re-raises from inside the handler
itself.  Memory context gathering never raises; a dependency failure skips the
subgoal before any routing; a routing exception, a `None` routed tool
(`tool.name` raises `AttributeError`) or a raising evaluator call all land in
the except branch; tool exceptions are already converted to error envelopes by
`execute_tool` and therefore mark the subgoal COMPLETED. -/
def process_subgoal (env : Env) (s : MachineState) : Except PyErr MachineState :=
  match s.subgoals[s.idx]? with
  | none => .error .indexError
  | some sg0 =>
    let ctx := get_relevant_context s.mem (env.searchDocs s.clock sg0.description)
    let c1 := s.clock + 1
    match check_dependencies (s.subgoals.take s.idx) sg0 with
    | .error e => .ok (writeBack s (exceptSg sg0 e) c1 s.events)
    | .ok (depResults, sg1) =>
      if sg1.skipped.getD false then .ok (writeBack s sg1 c1 s.events)
      else
        let prevResults :=
          depResults.foldl (fun acc p => assocSet acc p.1 p.2)
            [("memory_context", format_memory_context (get_memory_context s.mem ctx))]
        let contextStr :=
          String.intercalate "\n\n" (prevResults.map (fun p => p.1 ++ ": " ++ p.2)) ++
            "\n\nCurrent Subgoal: " ++ sg1.description
        let events1 := s.events ++ [Event.routeCall contextStr]
        match route (env.routeResp c1 contextStr) contextStr with
        | .error e => .ok (writeBack s (exceptSg sg1 e) (c1 + 1) events1)
        | .ok (none, _, _) =>
          .ok (writeBack s (exceptSg sg1 (.attributeError "NoneType object has no attribute name")) (c1 + 1) events1)
        | .ok (some toolName, q, isUrl) =>
          let sg2 := { sg1 with tool := some toolName, query := some (some q) }
          let result :=
            match env.toolRun (c1 + 1) toolName (some q) isUrl with
            | .ok r => r
            | .error e => { error := some ("Tool execution failed: " ++ e.msg) }
          let c2 := c1 + 2
          let events2 := events1 ++ [Event.toolCall toolName]
          match env.evalRun c2 with
          | .error e => .ok (writeBack s (exceptSg sg2 e) (c2 + 1) events2)
          | .ok _ =>
            match env.evalRun (c2 + 1) with
            | .error e => .ok (writeBack s (exceptSg sg2 e) (c2 + 2) events2)
            | .ok _ =>
              .ok (writeBack s { sg2 with completed := some true, result := some (.env result) }
                    (c2 + 2) events2)

/-- `TaskReviewer.review` (`task_reviewer.py` lines 29-64).  Skipped subgoals
are returned untouched without consulting the service.  Otherwise
`subgoal.get('result', {}).get('type')` raises `AttributeError` when `None` is
stored under `result`; the verdict fields are then written onto the subgoal,
where the eagerly evaluated default of `response.get('query', subgoal['query'])`
raises `KeyError` when the subgoal has no `query` key (the response dict always
has one, possibly `None`).  The except branch re-raises, so every one of these
exceptions aborts the workflow run. -/
def review (env : Env) (s : MachineState) : Except PyErr MachineState :=
  match s.subgoals[s.idx]? with
  | none => .error .indexError
  | some sg =>
    if sg.skipped.getD false then .ok s
    else
      match sg.result.getD (.env {}) with
      | .pyNone => .error (.attributeError "NoneType object has no attribute get")
      | .env _ =>
        match env.reviewResp s.clock sg with
        | .error e => .error e
        | .ok r =>
          match sg.query with
          | none => .error (.keyError "query")
          | some _ =>
            let sg1 := { sg with
              completed := some r.completed, feedback := some r.feedback,
              retry := some r.retry, query := some r.query, is_url := some r.is_url }
            .ok { s with subgoals := s.subgoals.set s.idx sg1, clock := s.clock + 1 }

/-- `FinancialAgent.retry_subgoal` (`core.py` lines 170-197).  No try/except
here: a missing `retries` or `tool` key, an unregistered recorded tool name, or
a raising evaluator call each raise out of the node and abort the run.  When
the incremented retry count reaches the bound the subgoal is marked failed and
skipped and the node returns without touching the tools; otherwise the recorded
tool is re-executed with the current query (tool exceptions again become error
envelopes inside `execute_tool`). -/
def retry_subgoal (max_retries : Nat) (env : Env) (s : MachineState) :
    Except PyErr MachineState :=
  match s.subgoals[s.idx]? with
  | none => .error .indexError
  | some sg =>
    match sg.retries with
    | none => .error (.keyError "retries")
    | some n =>
      let sg1 := { sg with retries := some (n + 1) }
      if max_retries ≤ n + 1 then
        let sg2 := { sg1 with completed := some false, skipped := some true }
        .ok { s with subgoals := s.subgoals.set s.idx sg2 }
      else
        let q : Option String :=
          match sg1.query with
          | none => some sg1.description
          | some v => v
        match sg1.tool with
        | none => .error (.keyError "tool")
        | some t =>
          if t ∈ toolRegistry then
            let result :=
              match env.toolRun s.clock t q (sg1.is_url.getD false) with
              | .ok r => r
              | .error e => { error := some ("Tool execution failed: " ++ e.msg) }
            let c1 := s.clock + 1
            match env.evalRun c1 with
            | .error e => .error e
            | .ok _ =>
              match env.evalRun (c1 + 1) with
              | .error e => .error e
              | .ok _ =>
                .ok { s with
                      subgoals := s.subgoals.set s.idx { sg1 with result := some (.env result) },
                      clock := c1 + 2, events := s.events ++ [Event.toolCall t] }
          else .error (.keyError t)

/-- The list of useful results gathered by `synthesize_response`: completed
subgoals whose stored result is truthy (a non-empty dict), paired with their
descriptions; the non-dict branch of the source is unreachable because every
stored result is `None` or an envelope dict. -/
def usefulResults (subgoals : List Subgoal) : List (ResultEnv × String) :=
  subgoals.foldl
    (fun acc sg =>
      if sg.completed.getD false then
        match sg.result.getD .pyNone with
        | .pyNone => acc
        | .env e => if e.truthy then acc ++ [(e, sg.description)] else acc
      else acc) []

/-- The visualisation/text split of `synthesize_response`: plot envelopes with
a display fragment contribute the fragment; every other envelope is rendered
as a `Context/Result` block, where `result["result"]` raises `KeyError` when
the envelope (for example an error envelope) has no `result` key. -/
def splitResults : List (ResultEnv × String) → Except PyErr (List String × List String)
  | [] => .ok ([], [])
  | (e, ctxDesc) :: rest =>
    if e.type_ == some "plot" && e.display.isSome then
      (splitResults rest).map (fun p => (e.display.getD "" :: p.1, p.2))
    else
      match e.result with
      | none => .error (.keyError "result")
      | some rv =>
        (splitResults rest).map (fun p => (p.1, ("Context: " ++ ctxDesc ++ "\nResult:" ++ rv) :: p.2))

/-- `FinancialAgent.synthesize_response` (`core.py` lines 205-286).  The try
block gathers completed results, fetches memory context, splits visualisations
from text, asks the service for the narrative, runs the evaluator, stores the
answer in memory and returns a fresh state whose `final_response` is the
`{content, display}` dict.  On any exception the except branch returns a state
whose `final_response` is the bare STRING `"Error synthesizing response: ..."`. -/
def synthesize_response (env : Env) (s : MachineState) : MachineState :=
  let urs := usefulResults s.subgoals
  let ctx := get_relevant_context s.mem (env.searchDocs s.clock s.query)
  let ctxStr := if ctx.isEmpty then "" else "\nRelevant Historical Context:\n" ++ renderMsgs ctx
  let c1 := s.clock + 1
  match splitResults urs with
  | .error e => { s with finalResponse := .str ("Error synthesizing response: " ++ e.msg), clock := c1 }
  | .ok (viz, txt) =>
    match env.synthResp c1 ctxStr (String.intercalate "\n\n" txt) with
    | .error e =>
      { s with finalResponse := .str ("Error synthesizing response: " ++ e.msg), clock := c1 + 1 }
    | .ok responseText =>
      match env.evalRun (c1 + 1) with
      | .error e =>
        { s with finalResponse := .str ("Error synthesizing response: " ++ e.msg), clock := c1 + 2 }
      | .ok _ =>
        let mem1 :=
          (add_to_memory (env.summResp (c1 + 2)) (env.indexOk (c1 + 2)) s.mem "assistant" responseText).1
        let display := if viz.isEmpty then none else some (String.intercalate "\n\n" viz)
        { s with mem := mem1, clock := c1 + 3, finalResponse := .dict responseText display }

/-- The workflow graph nodes of `_create_workflow`, plus a terminal marker. -/
inductive Node where
  | process | reviewN | retryN | advance | synth | done
deriving DecidableEq, Repr

/-- A workflow configuration: the node about to run, and the threaded state. -/
structure Config where
  node : Node
  st : MachineState

/-- One transition of the compiled langgraph workflow: run the current node,
then follow the graph's edge; the two conditional edges evaluate
`TaskReviewer.should_retry` (which dereferences the cursor outside its try
block) and `FinancialAgent.should_continue` on the node's output state.  A
raise inside a node has no successor: the run aborts. -/
def step (max_retries : Nat) (env : Env) (c : Config) : Except PyErr Config :=
  match c.node with
  | .process => (process_subgoal env c.st).map (fun st => ⟨.reviewN, st⟩)
  | .reviewN =>
    match review env c.st with
    | .error e => .error e
    | .ok st =>
      match st.subgoals[st.idx]? with
      | none => .error .indexError
      | some sg =>
        .ok (if should_retry max_retries sg = "retry" then ⟨.retryN, st⟩ else ⟨.advance, st⟩)
  | .retryN => (retry_subgoal max_retries env c.st).map (fun st => ⟨.reviewN, st⟩)
  | .advance =>
    let st := { c.st with idx := c.st.idx + 1 }
    .ok (if st.subgoals.length ≤ st.idx then ⟨.synth, st⟩ else ⟨.process, st⟩)
  | .synth => .ok ⟨.done, synthesize_response env c.st⟩
  | .done => .ok c

/-- The one-step reachability relation (a raising node has no successor). -/
def Steps (max_retries : Nat) (env : Env) (c c' : Config) : Prop :=
  step max_retries env c = .ok c'

/-- Multi-step reachability through the workflow graph. -/
def Reach (max_retries : Nat) (env : Env) : Config → Config → Prop :=
  Relation.ReflTransGen (Steps max_retries env)

/-- A subgoal exactly as `TaskPlanner.plan` hands it to the orchestrator:
fresh life-cycle fields and no tool/query/skip/feedback keys yet. -/
def PlannerFresh (sg : Subgoal) : Prop :=
  sg.tool = none ∧ sg.query = none ∧ sg.is_url = none ∧ sg.completed = some false ∧
    sg.skipped = none ∧ sg.retries = some 0 ∧ sg.result = some .pyNone ∧
    sg.feedback = none ∧ sg.retry = none

/-- Initial configurations as `process_query` creates them: planner-produced
subgoals, cursor 0, and the workflow's entry point `process_subgoal`. -/
def InitConfig (c : Config) : Prop :=
  c.node = .process ∧ c.st.idx = 0 ∧ ∀ sg ∈ c.st.subgoals, PlannerFresh sg

/-! ## Theorems -/

/-- Claim C3: for every just-reviewed subgoal, `should_retry` implements the
spec's decision table — "continue" when the subgoal is skipped; "continue" when
it is not completed, `is_url` is set and the feedback does not mention an
error; "retry" when it is not completed and `retries < max_retries`; "continue"
when it is not completed and `retries >= max_retries`; "continue" when it is
completed; and "continue" when evaluating the conditions raises (the absent
feedback value). -/
theorem C3_should_retry_decision (max_retries : Nat) (sg : Subgoal) :
    should_retry max_retries sg = should_retry_spec_table max_retries sg := by
  unfold should_retry should_retry_spec_table
  cases hsk : sg.skipped.getD false <;>
    cases hc : sg.completed.getD false <;>
      cases hu : sg.is_url.getD false <;>
        cases hfb : sg.feedback <;>
          simp [hsk, hc, hu, hfb]

/-- Claim C7 witness data is plain; the theorem: after `add_to_memory` on a
window holding at most 5 entries, the window again holds at most 5 entries;
the number of summary regenerations is exactly one when the window was full
(the call that would make it exceed the bound) and zero otherwise; and on
overflow the regeneration folds the full 6-entry window — including the entry
about to be evicted — into the summary before the oldest entry is dropped. -/
theorem C7_window_bounded (summ : List Msg → Except PyErr String) (ix : Bool)
    (m : MemState) (role content : String) (h : m.recent.length ≤ 5) :
    (add_to_memory summ ix m role content).1.recent.length ≤ 5 ∧
    (add_to_memory summ ix m role content).2 = (if m.recent.length = 5 then 1 else 0) ∧
    (m.recent.length = 5 →
      (add_to_memory summ ix m role content).1.recent =
        (m.recent ++ [Msg.mk role content]).tail ∧
      (add_to_memory summ ix m role content).1.summary =
        (match summ (m.recent ++ [Msg.mk role content]) with
         | .ok s => s
         | .error _ => m.summary)) := by
  unfold add_to_memory summarize_context maxRecentInteractions
  by_cases h5 : m.recent.length = 5
  · simp only [List.length_append, List.length_cons, List.length_nil, h5]
    cases hsum : summ (m.recent ++ [Msg.mk role content]) <;>
      simp [hsum, List.isEmpty_iff, List.length_tail, h5]
  · have hlt : m.recent.length + 1 ≤ 5 := by omega
    simp only [List.length_append, List.length_cons, List.length_nil]
    simp [h5, Nat.lt_irrefl, show ¬ (5 < m.recent.length + 1) by omega, hlt]

/-- Claim C7, instantiated: a full 5-entry window plus one `add_to_memory`
call stays at 5 entries and regenerates the summary exactly once. -/
theorem C7_window_bounded_witness :
    (([⟨"human", "a"⟩, ⟨"assistant", "b"⟩, ⟨"human", "c"⟩, ⟨"assistant", "d"⟩,
       ⟨"human", "e"⟩] : List Msg).length ≤ 5) ∧
    ((add_to_memory (fun _ => .ok "S") true
        ⟨[], [⟨"human", "a"⟩, ⟨"assistant", "b"⟩, ⟨"human", "c"⟩, ⟨"assistant", "d"⟩,
          ⟨"human", "e"⟩], "", false⟩ "human" "f").1.recent.length ≤ 5 ∧
      (add_to_memory (fun _ => .ok "S") true
        ⟨[], [⟨"human", "a"⟩, ⟨"assistant", "b"⟩, ⟨"human", "c"⟩, ⟨"assistant", "d"⟩,
          ⟨"human", "e"⟩], "", false⟩ "human" "f").2 =
        (if ([⟨"human", "a"⟩, ⟨"assistant", "b"⟩, ⟨"human", "c"⟩, ⟨"assistant", "d"⟩,
          ⟨"human", "e"⟩] : List Msg).length = 5 then 1 else 0)) := by
  have h := C7_window_bounded (fun _ => .ok "S") true
    ⟨[], [⟨"human", "a"⟩, ⟨"assistant", "b"⟩, ⟨"human", "c"⟩, ⟨"assistant", "d"⟩,
      ⟨"human", "e"⟩], "", false⟩ "human" "f" (by decide)
  exact ⟨by decide, h.1, h.2.1⟩

/-- Folding membership-guarded appends onto a base list yields the base
followed by a duplicate-free, base-disjoint selection of the candidates. -/
theorem dedup_fold_spec (xs : List Msg) (base : List Msg) :
    ∃ extra : List Msg,
      xs.foldl (fun acc mg => if mg ∈ acc then acc else acc ++ [mg]) base = base ++ extra ∧
      extra.Nodup ∧ (∀ x ∈ extra, x ∉ base) ∧ (∀ x ∈ extra, x ∈ xs) ∧
      extra.length ≤ xs.length := by
  induction xs generalizing base with
  | nil => exact ⟨[], by simp⟩
  | cons x xs ih =>
    by_cases hx : x ∈ base
    · obtain ⟨extra, he, hnd, hnb, hxs, hlen⟩ := ih base
      exact ⟨extra, by simpa [hx] using he, hnd, hnb,
        fun y hy => List.mem_cons_of_mem _ (hxs y hy), Nat.le_succ_of_le hlen⟩
    · obtain ⟨extra, he, hnd, hnb, hxs, hlen⟩ := ih (base ++ [x])
      refine ⟨x :: extra, ?_, ?_, ?_, ?_, ?_⟩
      · rw [List.foldl_cons, if_neg hx, he, List.append_assoc]; rfl
      · exact List.nodup_cons.mpr ⟨fun hmem => hnb x hmem (by simp), hnd⟩
      · intro y hy
        rcases List.mem_cons.mp hy with rfl | hy
        · exact hx
        · exact fun hyb => hnb y hy (by simp [hyb])
      · intro y hy
        rcases List.mem_cons.mp hy with rfl | hy
        · simp
        · exact List.mem_cons_of_mem _ (hxs y hy)
      · simpa using Nat.succ_le_succ hlen

/-- A successful search-hit parse preserves the batch length. -/
theorem parse_docs_length :
    ∀ (docs : List SearchDoc) (msgs : List Msg),
      parse_docs docs = .ok msgs → msgs.length = docs.length := by
  intro docs
  induction docs with
  | nil => intro msgs h; simp [parse_docs] at h; simp [← h]
  | cons d ds ih =>
    intro msgs h
    unfold parse_docs at h
    cases hf : parse_search_doc d with
    | error e => rw [hf] at h; exact absurd h (by simp)
    | ok y =>
      rw [hf] at h
      cases hds : parse_docs ds with
      | error e => rw [hds] at h; exact absurd h (by simp [Except.map])
      | ok ys =>
        rw [hds] at h
        simp only [Except.map, Except.ok.injEq] at h
        subst h
        simp [ih ys hds]

/-- Claim C8: for a live similarity index and a successfully parsed batch of at
most 3 search hits, `get_relevant_context` returns the summary entry (only if
the summary is non-empty), then the full sliding window in order, then at most
3 extra messages drawn from the parsed hits, pairwise distinct and each absent
from the summary-plus-window part — so no duplicate `{role, content}` entry
ever arises from overlap between the window and the search results. -/
theorem C8_relevant_context_dedup (m : MemState) (docs : List SearchDoc)
    (msgs : List Msg) (hvec : m.vec = true)
    (hparse : parse_docs docs = .ok msgs) (hk : docs.length ≤ 3) :
    ∃ extra : List Msg,
      get_relevant_context m (.ok docs) = summaryEntry m ++ m.recent ++ extra ∧
      extra.Nodup ∧ (∀ x ∈ extra, x ∉ summaryEntry m ++ m.recent) ∧
      (∀ x ∈ extra, x ∈ msgs) ∧ extra.length ≤ 3 := by
  obtain ⟨extra, he, hnd, hnb, hxs, hlen⟩ := dedup_fold_spec msgs (summaryEntry m ++ m.recent)
  have hml : msgs.length = docs.length := parse_docs_length docs msgs hparse
  refine ⟨extra, ?_, hnd, hnb, hxs, by omega⟩
  simp only [get_relevant_context, hvec, hparse, Bool.not_true]
  simpa using he

/-- Claim C8, instantiated: a window entry also returned by the similarity
search is not repeated. -/
theorem C8_relevant_context_dedup_witness :
    ∃ extra : List Msg,
      get_relevant_context ⟨[], [⟨"human", "hi"⟩], "", true⟩
          (.ok [⟨some "human", "human: hi"⟩, ⟨some "assistant", "assistant: yo"⟩]) =
        summaryEntry ⟨[], [⟨"human", "hi"⟩], "", true⟩ ++ [⟨"human", "hi"⟩] ++ extra ∧
      extra.Nodup ∧
      (∀ x ∈ extra, x ∉ summaryEntry ⟨[], [⟨"human", "hi"⟩], "", true⟩ ++ [⟨"human", "hi"⟩]) ∧
      (∀ x ∈ extra, x ∈ ([⟨"human", "hi"⟩, ⟨"assistant", "yo"⟩] : List Msg)) ∧
      extra.length ≤ 3 :=
  C8_relevant_context_dedup ⟨[], [⟨"human", "hi"⟩], "", true⟩
    [⟨some "human", "human: hi"⟩, ⟨some "assistant", "assistant: yo"⟩]
    [⟨"human", "hi"⟩, ⟨"assistant", "yo"⟩] rfl rfl (by decide)

/-- Claim C5 (code bug): when the planning service signals "no plan possible"
via the null sentinel, `plan` builds the intended user-facing "could not
decompose" message but returns it as a bare string; `process_query`'s tuple
unpack of that string raises `ValueError`, so the user actually receives the
generic planning-error message, never the intended one — though indeed no
subgoals are created and no workflow (hence no tool) is started. -/
theorem C5_sentinel_message_lost :
    plan (.ok ⟨.pyNull, "rationale"⟩) = .ok (.errStr couldNotBreakDownMsg) ∧
    planningPhase (plan (.ok ⟨.pyNull, "rationale"⟩)) =
      .earlyReturn "I encountered an error while planning how to answer your query: too many values to unpack (expected 2)" ∧
    planningPhase (plan (.ok ⟨.pyNull, "rationale"⟩)) ≠ .earlyReturn couldNotBreakDownMsg ∧
    (∀ gs, planningPhase (plan (.ok ⟨.pyNull, "rationale"⟩)) ≠ .runWorkflow gs) := by
  refine ⟨rfl, by decide, by decide, fun gs => ?_⟩
  intro h
  rw [show planningPhase (plan (.ok ⟨.pyNull, "rationale"⟩)) =
    .earlyReturn "I encountered an error while planning how to answer your query: too many values to unpack (expected 2)" from by decide] at h
  exact PlanPhase.noConfusion h

/-- Claim C6 (code bug): the router's advertised web-search fallback never
happens — an unresolvable tool name makes `route` return no tool at all while
keeping the service's query (the `if not selected_tool_name` guard only fires
on the empty string, and then stores a tool object instead of a name), and a
missing decision raises out of `model_validate(None)` instead of defaulting.
Case-insensitive matching and exception propagation do hold. -/
theorem C6_route_defaults_broken :
    route (.ok (some ⟨"Search", "llm query", false⟩)) "original subgoal" =
      .ok (none, "llm query", false) ∧
    route (.ok none) "original subgoal" =
      .error (.validationError "1 validation error for ToolRouterSchema") ∧
    route (.ok (some ⟨"WEB_SEARCH", "q", true⟩)) "original subgoal" =
      .ok (some "web_search", "q", true) ∧
    route (.error (.exn "boom")) "original subgoal" = .error (.exn "boom") :=
  ⟨rfl, rfl, rfl, rfl⟩

/-- If some scanned prerequisite is referenced by `deps` and not completed,
the dependency scan returns the current subgoal marked skipped (the scan stops
at the first such prerequisite, which exists). -/
theorem check_dependencies_aux_skip (deps : List String) (cur : Subgoal) :
    ∀ (prior : List Subgoal) (acc : List (String × String)) (j : Nat) (sgj : Subgoal),
      prior[j]? = some sgj → toString sgj.order_number ∈ deps →
      sgj.completed.getD false = false →
      (check_dependencies_aux deps cur acc prior).2 = { cur with skipped := some true } := by
  intro prior
  induction prior with
  | nil => intro acc j sgj hj; simp at hj
  | cons p ps ih =>
    intro acc j sgj hj hmem hnc
    cases j with
    | zero =>
      simp only [List.getElem?_cons_zero, Option.some.injEq] at hj
      subst hj
      unfold check_dependencies_aux
      rw [if_pos hmem, if_pos (by simp [hnc])]
    | succ j =>
      simp only [List.getElem?_cons_succ] at hj
      unfold check_dependencies_aux
      by_cases hp : toString p.order_number ∈ deps
      · by_cases hc : p.completed.getD false
        · rw [if_pos hp, if_neg (by simp [hc])]
          exact ih _ j sgj hj hmem hnc
        · rw [if_pos hp, if_pos (by simp [hc])]
      · rw [if_neg hp]
        exact ih _ j sgj hj hmem hnc

/-- Claim C2: when the current subgoal's `depends_on` references the order
number of an earlier subgoal that is not completed at the moment the cursor
reaches it, `process_subgoal` marks the current subgoal `skipped=true` and
returns with every other field of it — in particular `result` — unchanged,
every other subgoal untouched, and no router or tool call issued. -/
theorem C2_incomplete_dependency_skips (env : Env) (s : MachineState)
    (sg sgj : Subgoal) (deps : List String) (j : Nat)
    (hcur : s.subgoals[s.idx]? = some sg) (hdeps : sg.depends_on = some deps)
    (hj : j < s.idx) (hsgj : s.subgoals[j]? = some sgj)
    (hmem : toString sgj.order_number ∈ deps)
    (hnc : sgj.completed.getD false = false) :
    ∃ st', process_subgoal env s = .ok st' ∧
      st'.subgoals[s.idx]? = some { sg with skipped := some true } ∧
      (∀ i, i ≠ s.idx → st'.subgoals[i]? = s.subgoals[i]?) ∧
      st'.events = s.events := by
  have hjt : (s.subgoals.take s.idx)[j]? = some sgj := by
    rw [List.getElem?_take_of_lt hj]; exact hsgj
  have hidx : s.idx < s.subgoals.length := by
    by_contra hge
    rw [List.getElem?_eq_none (by omega)] at hcur
    exact Option.noConfusion hcur
  rcases hprior : s.subgoals.take s.idx with _ | ⟨p, ps⟩
  · rw [hprior] at hjt; simp at hjt
  · rw [hprior] at hjt
    have haux : (check_dependencies_aux deps sg [] (p :: ps)).2 =
        { sg with skipped := some true } :=
      check_dependencies_aux_skip deps sg (p :: ps) [] j sgj hjt hmem hnc
    have hcd0 : check_dependencies (p :: ps) sg =
        .ok (check_dependencies_aux deps sg [] (p :: ps)) := by
      unfold check_dependencies
      rw [hdeps]
    have hcd : check_dependencies (s.subgoals.take s.idx) sg =
        .ok ((check_dependencies_aux deps sg [] (p :: ps)).1, { sg with skipped := some true }) := by
      rw [hprior, hcd0, ← haux]
    refine ⟨writeBack s { sg with skipped := some true } (s.clock + 1) s.events, ?_, ?_, ?_, ?_⟩
    · simp only [process_subgoal, hcur, hcd, Option.getD_some, if_true]
    · simp only [writeBack]
      exact List.getElem?_set_eq_of_lt _ hidx
    · intro i hi
      simp only [writeBack]
      exact List.getElem?_set_ne (fun h => hi h.symm)
    · rfl

/-- An environment whose collaborators are never reached on the tested paths. -/
def quietEnv : Env :=
  ⟨fun _ _ => .error (.exn "down"), fun _ _ _ _ => .ok {}, fun _ => .ok (),
   fun _ _ => .error (.exn "down"), fun _ _ _ => .ok "", fun _ _ => .ok [],
   fun _ _ => .ok "", fun _ => true⟩

/-- First planner-fresh subgoal of the C2 witness scenario. -/
def c2sgA : Subgoal :=
  { order_number := 1, description := "step one", depends_on := some [],
    retries := some 0, completed := some false, result := some .pyNone }

/-- Second subgoal of the C2 witness scenario, depending on subgoal 1. -/
def c2sgB : Subgoal :=
  { order_number := 2, description := "step two", depends_on := some ["1"],
    retries := some 0, completed := some false, result := some .pyNone }

/-- C2 witness state: the cursor sits on the dependent subgoal while its
prerequisite is still incomplete. -/
def c2state : MachineState :=
  { task := "t", query := "q", subgoals := [c2sgA, c2sgB], idx := 1, mem := {} }

/-- Claim C2, instantiated: a subgoal depending on `["1"]` with subgoal 1 not
completed is skipped with its result untouched and no router or tool call. -/
theorem C2_incomplete_dependency_skips_witness :
    ∃ st', process_subgoal quietEnv c2state = .ok st' ∧
      st'.subgoals[c2state.idx]? = some { c2sgB with skipped := some true } ∧
      (∀ i, i ≠ c2state.idx → st'.subgoals[i]? = c2state.subgoals[i]?) ∧
      st'.events = c2state.events :=
  C2_incomplete_dependency_skips quietEnv c2state c2sgB c2sgA ["1"] 0 rfl rfl
    (by decide) rfl (by decide) rfl

/-- Environment of the C4 scenario: routing resolves to web_search, the tool
itself raises, the evaluator succeeds. -/
def c4env : Env :=
  ⟨fun _ _ => .ok (some ⟨"web_search", "data query", false⟩),
   fun _ _ _ _ => .error (.exn "boom"), fun _ => .ok (),
   fun _ _ => .error (.exn "down"), fun _ _ _ => .ok "", fun _ _ => .ok [],
   fun _ _ => .ok "", fun _ => true⟩

/-- Fresh subgoal of the C4 scenario. -/
def c4sg : Subgoal :=
  { order_number := 1, description := "find data", depends_on := some [],
    retries := some 0, completed := some false, result := some .pyNone }

/-- State of the C4 scenario. -/
def c4state : MachineState :=
  { task := "t", query := "q", subgoals := [c4sg], idx := 0, mem := {} }

/-- Claim C4 counterexample: when the tool raises, `execute_tool` converts the
exception into an `{error: ...}` envelope, but `process_subgoal` then marks the
subgoal COMPLETED (`completed=true`), not `completed=false` as claimed; the
subgoal is not skipped, so the reviewer still runs on it. -/
theorem C4_counterexample :
    ∃ st, process_subgoal c4env c4state = .ok st ∧
      st.subgoals[0]?.map Subgoal.completed = some (some true) ∧
      st.subgoals[0]?.map Subgoal.result =
        some (some (.env { error := some "Tool execution failed: boom" })) ∧
      st.subgoals[0]?.map Subgoal.skipped = some none :=
  ⟨_, rfl, rfl, rfl, rfl⟩

/-- Claim C4 as amended: a tool exception is caught at the `execute_tool`
boundary and becomes an `{error: ...}` result envelope on the subgoal (never
propagated to the orchestrator), the subgoal stays un-skipped so the reviewer
still runs on it — but `process_subgoal` marks it `completed=true`, since no
exception reaches its try block. -/
theorem C4_tool_error_completed_true (env : Env) (s : MachineState) (sg : Subgoal)
    (dr : List (String × String)) (rr : RouteResponse) (te : PyErr)
    (hcur : s.subgoals[s.idx]? = some sg)
    (hcd : check_dependencies (s.subgoals.take s.idx) sg = .ok (dr, sg))
    (hskip : sg.skipped.getD false = false)
    (hroute : ∀ n str, env.routeResp n str = .ok (some rr))
    (hname : strLower rr.selected_tool ∈ toolRegistry)
    (htool : ∀ n t q u, env.toolRun n t q u = .error te)
    (heval : ∀ n, env.evalRun n = .ok ()) :
    ∃ st', process_subgoal env s = .ok st' ∧
      st'.subgoals[s.idx]? = some { sg with
        tool := some (strLower rr.selected_tool), query := some (some rr.query),
        completed := some true,
        result := some (.env { error := some ("Tool execution failed: " ++ te.msg) }) } ∧
      ({ sg with
        tool := some (strLower rr.selected_tool), query := some (some rr.query),
        completed := some true,
        result := some (.env { error := some ("Tool execution failed: " ++ te.msg) }) } : Subgoal).skipped.getD false = false := by
  have hne : ¬ strLower rr.selected_tool = "" := by
    intro h
    rw [h] at hname
    revert hname
    decide
  have hidx : s.idx < s.subgoals.length := by
    by_contra hge
    rw [List.getElem?_eq_none (by omega)] at hcur
    exact Option.noConfusion hcur
  have hrouteEq : ∀ str, route (.ok (some rr)) str =
      .ok (some (strLower rr.selected_tool), rr.query, rr.is_url) := by
    intro str
    unfold route
    simp only []
    rw [if_neg hne]
    unfold toolsGet
    rw [if_pos hname]
  simp only [process_subgoal, hcur, hcd, hskip, Bool.false_eq_true, if_false, hroute,
    hrouteEq, htool, heval]
  exact ⟨_, rfl, List.getElem?_set_eq_of_lt _ hidx, trivial⟩

/-- Claim C4 amended, instantiated at the concrete tool-failure scenario. -/
theorem C4_tool_error_completed_true_witness :
    ∃ st', process_subgoal c4env c4state = .ok st' ∧
      st'.subgoals[c4state.idx]? = some { c4sg with
        tool := some (strLower "web_search"), query := some (some "data query"),
        completed := some true,
        result := some (.env { error := some ("Tool execution failed: " ++ (PyErr.exn "boom").msg) }) } ∧
      ({ c4sg with
        tool := some (strLower "web_search"), query := some (some "data query"),
        completed := some true,
        result := some (.env { error := some ("Tool execution failed: " ++ (PyErr.exn "boom").msg) }) } : Subgoal).skipped.getD false = false :=
  C4_tool_error_completed_true c4env c4state c4sg [] ⟨"web_search", "data query", false⟩
    (.exn "boom") rfl rfl rfl (fun _ _ => rfl) (by decide) (fun _ _ _ _ => rfl) (fun _ => rfl)

/-- Environment of the C9 scenario: the synthesis call raises. -/
def c9env : Env :=
  ⟨fun _ _ => .error (.exn "down"), fun _ _ _ _ => .ok {}, fun _ => .ok (),
   fun _ _ => .error (.exn "down"), fun _ _ _ => .error (.exn "boom"),
   fun _ _ => .ok [], fun _ _ => .ok "", fun _ => true⟩

/-- State of the C9 scenario (no completed subgoals to gather). -/
def c9state : MachineState :=
  { task := "t", query := "q", subgoals := [], idx := 0, mem := {} }

/-- Claim C9 counterexample: on a synthesis exception the except branch stores
the bare STRING `"Error synthesizing response: <message>"` in
`final_response` — not a `{content, display}` record as claimed (the wrapping
into a record happens later, in `process_query`). -/
theorem C9_counterexample :
    (synthesize_response c9env c9state).finalResponse =
      .str "Error synthesizing response: boom" ∧
    ∀ c d, (synthesize_response c9env c9state).finalResponse ≠ .dict c d := by
  refine ⟨rfl, fun c d h => ?_⟩
  rw [show (synthesize_response c9env c9state).finalResponse =
    .str "Error synthesizing response: boom" from rfl] at h
  exact FinalResp.noConfusion h

/-- Claim C9 as amended: whichever statement of the try block raises (the
result-splitting `KeyError` or the text-generation call), the synthesizer
catches it and sets `final_response` to the bare string
`"Error synthesizing response: <message>"` instead of propagating. -/
theorem C9_error_string_response (env : Env) (s : MachineState) (e : PyErr) :
    (splitResults (usefulResults s.subgoals) = .error e →
      (synthesize_response env s).finalResponse =
        .str ("Error synthesizing response: " ++ e.msg)) ∧
    (∀ viz txt, splitResults (usefulResults s.subgoals) = .ok (viz, txt) →
      (∀ n c r, env.synthResp n c r = .error e) →
      (synthesize_response env s).finalResponse =
        .str ("Error synthesizing response: " ++ e.msg)) := by
  constructor
  · intro h
    simp only [synthesize_response, h]
  · intro viz txt h hsr
    simp only [synthesize_response, h, hsr]

/-- Claim C9 amended, instantiated at the concrete raising-synthesis
scenario. -/
theorem C9_error_string_response_witness :
    (synthesize_response c9env c9state).finalResponse =
      .str ("Error synthesizing response: " ++ (PyErr.exn "boom").msg) :=
  (C9_error_string_response c9env c9state (.exn "boom")).2 [] [] rfl (fun _ _ _ => rfl)

/-! ## Reachability invariants of the workflow (claims C1 and C10) -/

/-- A routed tool is always one of the registered tools. -/
theorem route_ok_registered (resp : Except PyErr (Option RouteResponse))
    (sub : String) (t : String) (q : String) (u : Bool)
    (h : route resp sub = .ok (some t, q, u)) : t ∈ toolRegistry := by
  unfold route at h
  rcases resp with e | r
  · exact Except.noConfusion h
  · rcases r with _ | r
    · exact Except.noConfusion h
    · simp only [] at h
      by_cases hne : strLower r.selected_tool = ""
      · rw [if_pos hne] at h
        exact Except.noConfusion h
      · rw [if_neg hne] at h
        unfold toolsGet at h
        by_cases hmem : strLower r.selected_tool ∈ toolRegistry
        · rw [if_pos hmem] at h
          injection h with h
          injection h with h1 h2
          injection h1 with h1
          rwa [← h1]
        · rw [if_neg hmem] at h
          injection h with h
          injection h with h1 h2
          exact Option.noConfusion h1

/-- A `"retry"` verdict implies a not-skipped, not-completed subgoal whose
retry count is below the bound. -/
theorem should_retry_eq_retry (max_retries : Nat) (sg : Subgoal)
    (h : should_retry max_retries sg = "retry") :
    sg.skipped.getD false = false ∧ sg.completed.getD false = false ∧
      sg.retries.getD 0 < max_retries := by
  cases hsk : sg.skipped.getD false <;>
    cases hc : sg.completed.getD false <;>
      cases hu : sg.is_url.getD false <;>
        rcases hfb : sg.feedback with _ | fb <;>
          by_cases hr : sg.retries.getD 0 < max_retries <;>
            (try by_cases he : strContains fb "error") <;>
              (try simp [should_retry, hsk, hc, hu, hfb, hr, he] at h) <;>
                (try simp [should_retry, hsk, hc, hu, hfb, hr] at h) <;>
                  first
                  | exact ⟨rfl, rfl, hr⟩
                  | exact absurd h (by decide)

/-- A skipped subgoal always gets a `"continue"` verdict. -/
theorem should_retry_skipped (max_retries : Nat) (sg : Subgoal)
    (h : sg.skipped.getD false = true) : should_retry max_retries sg = "continue" := by
  unfold should_retry
  rw [if_pos h]

/-- The dependency scan returns the current subgoal either unchanged or with
only `skipped` forced to `true`. -/
theorem check_dependencies_aux_cur (deps : List String) (cur : Subgoal) :
    ∀ (prior : List Subgoal) (acc : List (String × String)),
      (check_dependencies_aux deps cur acc prior).2 = cur ∨
      (check_dependencies_aux deps cur acc prior).2 = { cur with skipped := some true } := by
  intro prior
  induction prior with
  | nil => intro acc; exact Or.inl rfl
  | cons p ps ih =>
    intro acc
    unfold check_dependencies_aux
    by_cases hp : toString p.order_number ∈ deps
    · by_cases hc : p.completed.getD false
      · rw [if_pos hp, if_neg (by simp [hc])]
        exact ih _
      · rw [if_pos hp, if_pos (by simp [hc])]
        exact Or.inr rfl
    · rw [if_neg hp]
      exact ih _

/-- `check_dependencies` on success returns the current subgoal unchanged or
with only `skipped` set. -/
theorem check_dependencies_cur (prior : List Subgoal) (cur : Subgoal)
    (dr : List (String × String)) (cur' : Subgoal)
    (h : check_dependencies prior cur = .ok (dr, cur')) :
    cur' = cur ∨ cur' = { cur with skipped := some true } := by
  unfold check_dependencies at h
  rcases prior with _ | ⟨p, ps⟩
  · injection h with h
    injection h with h1 h2
    exact Or.inl h2.symm
  · rcases hdo : cur.depends_on with _ | deps
    · rw [hdo] at h
      exact Except.noConfusion h
    · rw [hdo] at h
      injection h with h
      have hcur : (check_dependencies_aux deps cur [] (p :: ps)).2 = cur' := by rw [h]
      rcases check_dependencies_aux_cur deps cur (p :: ps) [] with h2 | h2
      · exact Or.inl (by rw [← hcur, h2])
      · exact Or.inr (by rw [← hcur, h2, hdo])

/-- Any successful `process_subgoal` keeps the cursor, writes exactly one
subgoal back at it, preserves that subgoal's retry counter, and never records
a query without also recording a registered tool. -/
theorem process_subgoal_shape (env : Env) (s st : MachineState)
    (h : process_subgoal env s = .ok st) :
    st.idx = s.idx ∧ ∃ sg0 sg', s.subgoals[s.idx]? = some sg0 ∧
      st.subgoals = s.subgoals.set s.idx sg' ∧ sg'.retries = sg0.retries ∧
      ((sg'.query = sg0.query ∧ sg'.tool = sg0.tool) ∨
        (sg'.query.isSome ∧ ∃ t, sg'.tool = some t ∧ t ∈ toolRegistry)) := by
  unfold process_subgoal at h
  split at h
  · exact Except.noConfusion h
  next sg0 hcur =>
    split at h
    next ecd hcd =>
      injection h with h
      subst h
      exact ⟨rfl, sg0, exceptSg sg0 ecd, hcur, rfl, rfl, Or.inl ⟨rfl, rfl⟩⟩
    next depResults sg1 hcd =>
      have hfields : sg1.retries = sg0.retries ∧ sg1.query = sg0.query ∧
          sg1.tool = sg0.tool := by
        rcases check_dependencies_cur _ _ _ _ hcd with rfl | rfl
        · exact ⟨rfl, rfl, rfl⟩
        · exact ⟨rfl, rfl, rfl⟩
      split at h
      · injection h with h
        subst h
        exact ⟨rfl, sg0, sg1, hcur, rfl, hfields.1,
          Or.inl ⟨hfields.2.1, hfields.2.2⟩⟩
      · simp only [] at h
        split at h
        next e hroute =>
          injection h with h
          subst h
          exact ⟨rfl, sg0, exceptSg sg1 e, hcur, rfl, hfields.1,
            Or.inl ⟨hfields.2.1, hfields.2.2⟩⟩
        next q u hroute =>
          injection h with h
          subst h
          exact ⟨rfl, sg0, _, hcur, rfl, hfields.1,
            Or.inl ⟨hfields.2.1, hfields.2.2⟩⟩
        next toolName q isUrl hroute =>
          have hreg : toolName ∈ toolRegistry :=
            route_ok_registered _ _ _ _ _ hroute
          repeat' split at h
          all_goals
            (injection h with h; subst h;
             exact ⟨rfl, sg0, _, hcur, rfl, hfields.1,
               Or.inr ⟨rfl, toolName, rfl, hreg⟩⟩)

/-- Any successful `review` either returns the state untouched on a skipped
current subgoal, or rewrites the current subgoal with the verdict fields,
requiring (and keeping) a present `query` key and leaving `tool` and `retries`
unchanged. -/
theorem review_shape (env : Env) (s st : MachineState)
    (h : review env s = .ok st) :
    (st = s ∧ ∃ sg, s.subgoals[s.idx]? = some sg ∧ sg.skipped.getD false = true) ∨
    (st.idx = s.idx ∧ ∃ sg r, s.subgoals[s.idx]? = some sg ∧
      sg.skipped.getD false = false ∧ sg.query.isSome ∧
      st.subgoals = s.subgoals.set s.idx { sg with
        completed := some (r : ReviewResponse).completed, feedback := some r.feedback,
        retry := some r.retry, query := some r.query, is_url := some r.is_url }) := by
  unfold review at h
  split at h
  · exact Except.noConfusion h
  next sg hcur =>
    split at h
    next hskip =>
      injection h with h
      exact Or.inl ⟨h.symm, sg, hcur, by simpa using hskip⟩
    next hskip =>
      split at h
      · exact Except.noConfusion h
      · split at h
        · exact Except.noConfusion h
        next r hresp =>
          split at h
          · exact Except.noConfusion h
          next q hq =>
            injection h with h
            subst h
            exact Or.inr ⟨rfl, sg, r, hcur, by simpa using hskip, by simp [hq], rfl⟩

/-- Any successful `retry_subgoal` keeps the cursor and either marks the
current subgoal failed-and-skipped at the bound (touching nothing else) or
re-executes and stores a new result; in both cases the retry counter becomes
its predecessor plus one and `query`/`tool` are unchanged. -/
theorem retry_subgoal_shape (max_retries : Nat) (env : Env) (s st : MachineState)
    (h : retry_subgoal max_retries env s = .ok st) :
    st.idx = s.idx ∧ ∃ sg n sg', s.subgoals[s.idx]? = some sg ∧
      sg.retries = some n ∧ st.subgoals = s.subgoals.set s.idx sg' ∧
      sg'.retries = some (n + 1) ∧ sg'.query = sg.query ∧ sg'.tool = sg.tool := by
  unfold retry_subgoal at h
  split at h
  · exact Except.noConfusion h
  next sg hcur =>
    split at h
    · exact Except.noConfusion h
    next n hret =>
      split at h
      · injection h with h
        subst h
        exact ⟨rfl, sg, n, _, hcur, hret, rfl, rfl, rfl, rfl⟩
      · simp only [] at h
        split at h
        · exact Except.noConfusion h
        next t htool =>
          split at h
          · split at h
            · exact Except.noConfusion h
            · split at h
              · exact Except.noConfusion h
              · injection h with h
                subst h
                exact ⟨rfl, sg, n, _, hcur, hret, rfl, rfl, rfl, rfl⟩
          · exact Except.noConfusion h

/-- `synthesize_response` never touches the subgoal list or the cursor. -/
theorem synthesize_response_subgoals (env : Env) (s : MachineState) :
    (synthesize_response env s).subgoals = s.subgoals ∧
      (synthesize_response env s).idx = s.idx := by
  unfold synthesize_response
  simp only []
  split
  · exact ⟨rfl, rfl⟩
  · split
    · exact ⟨rfl, rfl⟩
    · split
      · exact ⟨rfl, rfl⟩
      · exact ⟨rfl, rfl⟩

/-- Per-subgoal data invariant maintained by every workflow node: the
`retries` key exists and is within the bound, and a recorded `query` key
implies a recorded, registered `tool`. -/
def SubgoalInv (max_retries : Nat) (sg : Subgoal) : Prop :=
  sg.retries.isSome ∧ sg.retries.getD 0 ≤ max_retries ∧
    (sg.query.isSome → ∃ t, sg.tool = some t ∧ t ∈ toolRegistry)

/-- The inductive invariant over workflow configurations: every subgoal
satisfies the data invariant, and the retry node is only ever entered with a
current subgoal that is below the retry bound and carries a `query` key. -/
def MachineInv (max_retries : Nat) (c : Config) : Prop :=
  (∀ sg ∈ c.st.subgoals, SubgoalInv max_retries sg) ∧
  (c.node = .retryN → ∃ sg, c.st.subgoals[c.st.idx]? = some sg ∧
    sg.retries.getD 0 < max_retries ∧ sg.query.isSome)

/-- Updating one entry with an invariant-satisfying subgoal keeps the
whole-list invariant. -/
theorem subgoalInv_set (max_retries : Nat) (l : List Subgoal) (i : Nat) (sg' : Subgoal)
    (hall : ∀ sg ∈ l, SubgoalInv max_retries sg) (hsg' : SubgoalInv max_retries sg') :
    ∀ sg ∈ l.set i sg', SubgoalInv max_retries sg := by
  intro sg hmem
  rcases List.mem_or_eq_of_mem_set hmem with hmem | rfl
  · exact hall sg hmem
  · exact hsg'

/-- One workflow step preserves the machine invariant. -/
theorem step_preserves_inv (max_retries : Nat) (env : Env) (c c' : Config)
    (hstep : step max_retries env c = .ok c') (hinv : MachineInv max_retries c) :
    MachineInv max_retries c' := by
  obtain ⟨hall, hretry⟩ := hinv
  rcases c with ⟨node, s⟩
  cases node
  case process =>
    simp only [step] at hstep
    rcases hps : process_subgoal env s with e | st
    · rw [hps] at hstep
      exact Except.noConfusion hstep
    · rw [hps] at hstep
      injection hstep with hstep
      subst hstep
      obtain ⟨hidx, sg0, sg', hcur, hsub, hret, hqt⟩ := process_subgoal_shape env s st hps
      have hsg0 := hall sg0 (List.getElem?_mem hcur)
      refine ⟨?_, fun hn => Node.noConfusion hn⟩
      show ∀ sg ∈ st.subgoals, SubgoalInv max_retries sg
      rw [hsub]
      refine subgoalInv_set _ _ _ _ hall ⟨?_, ?_, ?_⟩
      · rw [hret]; exact hsg0.1
      · rw [hret]; exact hsg0.2.1
      · rcases hqt with ⟨hq, ht⟩ | ⟨hq, t, ht, hreg⟩
        · intro hqs
          rw [hq] at hqs
          rw [ht]
          exact hsg0.2.2 hqs
        · intro _
          exact ⟨t, ht, hreg⟩
  case reviewN =>
    simp only [step] at hstep
    rcases hrv : review env s with e | st
    · rw [hrv] at hstep
      exact Except.noConfusion hstep
    · simp only [hrv] at hstep
      rcases hse : st.subgoals[st.idx]? with _ | sg
      · rw [hse] at hstep
        exact Except.noConfusion hstep
      · rw [hse] at hstep
        injection hstep with hstep
        have hallst : ∀ x ∈ st.subgoals, SubgoalInv max_retries x := by
          rcases review_shape env s st hrv with ⟨rfl, _⟩ | ⟨hidx, sgr, r, hcur, hskip, hqs, hsub⟩
          · exact hall
          · rw [hsub]
            have hsgr := hall sgr (List.getElem?_mem hcur)
            refine subgoalInv_set _ _ _ _ hall ⟨hsgr.1, hsgr.2.1, fun _ => hsgr.2.2 hqs⟩
        by_cases hsr : should_retry max_retries sg = "retry"
        · rw [if_pos hsr] at hstep
          subst hstep
          refine ⟨hallst, fun _ => ⟨sg, hse, (should_retry_eq_retry _ _ hsr).2.2, ?_⟩⟩
          -- the current subgoal after a non-skip review always carries a query key
          rcases review_shape env s st hrv with ⟨rfl, sgk, hcurk, hskk⟩ | ⟨hidx, sgr, r, hcur, hskip, hqs, hsub⟩
          · rw [hcurk] at hse
            injection hse with hse
            subst hse
            exact absurd (should_retry_skipped max_retries sgk hskk) (by rw [hsr]; decide)
          · have hlt : s.idx < s.subgoals.length := by
              by_contra hge
              rw [List.getElem?_eq_none (by omega)] at hcur
              exact Option.noConfusion hcur
            rw [hidx, hsub, List.getElem?_set_eq_of_lt _ hlt] at hse
            injection hse with hse
            subst hse
            rfl
        · rw [if_neg hsr] at hstep
          subst hstep
          exact ⟨hallst, fun hn => Node.noConfusion hn⟩
  case retryN =>
    obtain ⟨sgc, hsgc, hlt, hq⟩ := hretry rfl
    simp only [step] at hstep
    rcases hrt : retry_subgoal max_retries env s with e | st
    · rw [hrt] at hstep
      exact Except.noConfusion hstep
    · rw [hrt] at hstep
      injection hstep with hstep
      subst hstep
      obtain ⟨hidx, sg, n, sg', hcur, hretn, hsub, hret1, hqeq, hteq⟩ :=
        retry_subgoal_shape max_retries env s st hrt
      rw [hsgc] at hcur
      injection hcur with hcur
      subst hcur
      have hsg := hall sgc (List.getElem?_mem hsgc)
      have hnlt : n < max_retries := by
        rw [hretn] at hlt
        simpa using hlt
      refine ⟨?_, fun hn => Node.noConfusion hn⟩
      show ∀ x ∈ st.subgoals, SubgoalInv max_retries x
      rw [hsub]
      refine subgoalInv_set _ _ _ _ hall ⟨?_, ?_, ?_⟩
      · rw [hret1]; rfl
      · rw [hret1]; simpa using hnlt
      · intro hqs
        rw [hqeq] at hqs
        rw [hteq]
        exact hsg.2.2 hqs
  case advance =>
    simp only [step] at hstep
    injection hstep with hstep
    by_cases hlen : s.subgoals.length ≤ s.idx + 1
    · rw [if_pos hlen] at hstep
      subst hstep
      exact ⟨hall, fun hn => Node.noConfusion hn⟩
    · rw [if_neg hlen] at hstep
      subst hstep
      exact ⟨hall, fun hn => Node.noConfusion hn⟩
  case synth =>
    simp only [step] at hstep
    injection hstep with hstep
    subst hstep
    refine ⟨?_, fun hn => Node.noConfusion hn⟩
    show ∀ x ∈ (synthesize_response env s).subgoals, SubgoalInv max_retries x
    rw [(synthesize_response_subgoals env s).1]
    exact hall
  case done =>
    simp only [step] at hstep
    injection hstep with hstep
    subst hstep
    exact ⟨hall, hretry⟩

/-- The machine invariant holds in every configuration reachable from one that
satisfies it. -/
theorem reach_inv (max_retries : Nat) (env : Env) (c0 c : Config)
    (h0 : MachineInv max_retries c0) (hr : Reach max_retries env c0 c) :
    MachineInv max_retries c := by
  induction hr with
  | refl => exact h0
  | tail _ hstep ih => exact step_preserves_inv max_retries env _ _ hstep ih

/-- The machine invariant holds in every initial configuration. -/
theorem init_inv (max_retries : Nat) (c : Config) (h : InitConfig c) :
    MachineInv max_retries c := by
  obtain ⟨hn, _, hall⟩ := h
  refine ⟨fun sg hsg => ?_, fun hr => ?_⟩
  · obtain ⟨ht, hq, hu, hc, hsk, hret, hres, hfb, hrty⟩ := hall sg hsg
    refine ⟨by rw [hret]; rfl, by rw [hret]; exact Nat.zero_le _, fun hqs => ?_⟩
    rw [hq] at hqs
    exact absurd hqs (by simp)
  · rw [hn] at hr
    exact Node.noConfusion hr

/-- Claim C1: in every configuration the workflow can reach from an initial
one, no subgoal's `retries` counter exceeds the configured `max_retries`; and
whenever `retry_subgoal` increments the counter to a value at or beyond the
bound it forces `completed=false` and `skipped=true` on the current subgoal
and returns at once — the resulting state differs only in that subgoal, so in
particular no tool call is issued (clock and event log untouched). -/
theorem C1_retries_bounded (max_retries : Nat) (env : Env) (c0 c : Config)
    (h0 : InitConfig c0) (hr : Reach max_retries env c0 c) :
    (∀ sg ∈ c.st.subgoals, sg.retries.getD 0 ≤ max_retries) ∧
    (∀ (s : MachineState) (sg : Subgoal) (n : Nat),
      s.subgoals[s.idx]? = some sg → sg.retries = some n → max_retries ≤ n + 1 →
      retry_subgoal max_retries env s = .ok { s with
        subgoals := s.subgoals.set s.idx { sg with
          retries := some (n + 1), completed := some false, skipped := some true } }) := by
  constructor
  · intro sg hsg
    exact ((reach_inv max_retries env c0 c (init_inv max_retries c0 h0) hr).1 sg hsg).2.1
  · intro s sg n hcur hret hmax
    simp only [retry_subgoal, hcur, hret]
    rw [if_pos hmax]

/-- A planner-fresh subgoal for the C1 witness. -/
def c1sg : Subgoal :=
  { order_number := 1, description := "collect facts", depends_on := some [],
    retries := some 0, completed := some false, result := some .pyNone }

/-- A fresh one-subgoal initial machine state for the C1 witness. -/
def c1cfg : Config :=
  ⟨.process, { task := "t", query := "q", subgoals := [c1sg], idx := 0, mem := {} }⟩

/-- Claim C1, instantiated at a concrete initial configuration (reached by the
empty run) with the default bound of 3. -/
theorem C1_retries_bounded_witness :
    (∀ sg ∈ c1cfg.st.subgoals, sg.retries.getD 0 ≤ defaultMaxRetries) ∧
    (∀ (s : MachineState) (sg : Subgoal) (n : Nat),
      s.subgoals[s.idx]? = some sg → sg.retries = some n → defaultMaxRetries ≤ n + 1 →
      retry_subgoal defaultMaxRetries quietEnv s = .ok { s with
        subgoals := s.subgoals.set s.idx { sg with
          retries := some (n + 1), completed := some false, skipped := some true } }) :=
  C1_retries_bounded defaultMaxRetries quietEnv c1cfg c1cfg
    ⟨rfl, rfl, by
      intro sg hsg
      simp only [c1cfg, List.mem_singleton] at hsg
      subst hsg
      exact ⟨rfl, rfl, rfl, rfl, rfl, rfl, rfl, rfl, rfl⟩⟩
    Relation.ReflTransGen.refl

/-- Claim C10 counterexample (the claim's negation): in NO reachable
configuration does the retry node run on a subgoal without a recorded `tool`
key — a subgoal whose processing failed before routing recorded a tool never
receives a `"retry"` verdict, because `review` raises on its missing `query`
key first, so the claimed registry `KeyError` inside `retry_subgoal` is
unreachable. -/
theorem C10_counterexample :
    ¬ ∃ (max_retries : Nat) (env : Env) (c0 c : Config) (sg : Subgoal),
        InitConfig c0 ∧ Reach max_retries env c0 c ∧ c.node = Node.retryN ∧
        c.st.subgoals[c.st.idx]? = some sg ∧ sg.tool = none := by
  rintro ⟨maxR, env, c0, c, sg, h0, hr, hn, hsg, htool⟩
  have hinv := reach_inv maxR env c0 c (init_inv maxR c0 h0) hr
  obtain ⟨sg2, hsg2, hlt, hq⟩ := hinv.2 hn
  rw [hsg2] at hsg
  injection hsg with hsg
  subst hsg
  obtain ⟨t, ht, hreg⟩ := (hinv.1 sg2 (List.getElem?_mem hsg2)).2.2 hq
  rw [htool] at ht
  exact Option.noConfusion ht

/-- Claim C10 as amended: the run DOES abort on such a subgoal, but earlier
and elsewhere — when routing raised during the first attempt, the subgoal is
written back with an error result, `completed=false` and no `tool`/`query`
keys; the subsequent review node then raises an uncaught `KeyError` on the
missing `query` key (the eagerly evaluated default of
`response.get('query', subgoal['query'])`), aborting the workflow before any
retry verdict is produced. -/
theorem C10_routing_failure_aborts_review (max_retries : Nat) (env : Env)
    (s : MachineState) (sg : Subgoal) (dr : List (String × String)) (re : PyErr)
    (rresp : ReviewResponse)
    (hcur : s.subgoals[s.idx]? = some sg)
    (hcd : check_dependencies (s.subgoals.take s.idx) sg = .ok (dr, sg))
    (hskip : sg.skipped.getD false = false)
    (hq : sg.query = none) (htool : sg.tool = none)
    (hroute : ∀ n str, env.routeResp n str = .error re)
    (hrev : ∀ n sgx, env.reviewResp n sgx = .ok rresp) :
    ∃ st', process_subgoal env s = .ok st' ∧
      st'.subgoals[st'.idx]? = some (exceptSg sg re) ∧
      (exceptSg sg re).completed = some false ∧
      (exceptSg sg re).tool = none ∧ (exceptSg sg re).query = none ∧
      step max_retries env ⟨.reviewN, st'⟩ = .error (.keyError "query") := by
  have hidx : s.idx < s.subgoals.length := by
    by_contra hge
    rw [List.getElem?_eq_none (by omega)] at hcur
    exact Option.noConfusion hcur
  simp only [process_subgoal, hcur, hcd, hskip, Bool.false_eq_true, if_false, hroute, route]
  refine ⟨_, rfl, List.getElem?_set_eq_of_lt _ hidx, rfl, htool, hq, ?_⟩
  simp only [step, review, writeBack, List.getElem?_set_eq_of_lt _ hidx, exceptSg, hskip,
    Bool.false_eq_true, if_false, hrev, hq, Option.getD_some]

/-- Environment of the C10 witness: routing raises, the reviewer service then
answers normally. -/
def c10env : Env :=
  ⟨fun _ _ => .error (.exn "llm down"), fun _ _ _ _ => .ok {}, fun _ => .ok (),
   fun _ _ => .ok ⟨false, "d", "fb", true, none, false⟩, fun _ _ _ => .ok "",
   fun _ _ => .ok [], fun _ _ => .ok "", fun _ => true⟩

/-- Planner-fresh subgoal of the C10 witness. -/
def c10sg : Subgoal :=
  { order_number := 1, description := "fetch report", depends_on := some [],
    retries := some 0, completed := some false, result := some .pyNone }

/-- State of the C10 witness. -/
def c10state : MachineState :=
  { task := "t", query := "q", subgoals := [c10sg], idx := 0, mem := {} }

/-- Claim C10 amended, instantiated: a routing failure followed by a review
aborts the workflow with `KeyError: query` inside the review node. -/
theorem C10_routing_failure_aborts_review_witness :
    ∃ st', process_subgoal c10env c10state = .ok st' ∧
      st'.subgoals[st'.idx]? = some (exceptSg c10sg (.exn "llm down")) ∧
      (exceptSg c10sg (.exn "llm down")).completed = some false ∧
      (exceptSg c10sg (.exn "llm down")).tool = none ∧
      (exceptSg c10sg (.exn "llm down")).query = none ∧
      step defaultMaxRetries c10env ⟨.reviewN, st'⟩ = .error (.keyError "query") :=
  C10_routing_failure_aborts_review defaultMaxRetries c10env c10state c10sg []
    (.exn "llm down") ⟨false, "d", "fb", true, none, false⟩ rfl rfl rfl rfl rfl
    (fun _ _ => rfl) (fun _ _ => rfl)

end FinAgent
